import Mathlib

/-!
Shallow embedding of `src/update-books.js` (papemg/biblioteca).

The script is a publish workflow: it validates that the working directory is a
git repository and that `books.md` exists, queries `git status --porcelain`
for pending changes, resolves a commit message from the command-line
arguments (or a timestamped default), and then runs `git add .`,
`git commit -m "<msg>"`, `git push` in order, aborting on the first failure.
A `--help` / `-h` flag anywhere in `process.argv` prints the usage text and
exits 0 before any of that.

External commands are modelled by an environment `Env` recording, for each
command the script may run, its outcome (success/failure and captured
output).  A run produces a `RunResult`: the process exit code, the ordered
list of external commands actually executed, and the list of `console.log`
calls made (each entry one call, with the ANSI color codes the script
emits).
-/

namespace UpdateBooks

/-- ANSI color escape codes, from the `colors` object in update-books.js. -/
def colorGreen : String := "\x1b[32m"

def colorYellow : String := "\x1b[33m"

def colorRed : String := "\x1b[31m"

def colorBlue : String := "\x1b[34m"

def colorReset : String := "\x1b[0m"

def colorBold : String := "\x1b[1m"

/-- The `log(message, color)` helper: one `console.log` printing
`${color}${message}${colors.reset}`. -/
def logLine (message : String) (color : String) : String :=
  color ++ message ++ colorReset

/-- The external commands the script can invoke, with the exact command
strings given by `cmdString`. -/
inductive GitCmd where
  | revParse
  | status
  | add
  | commit (msg : String)
  | push
deriving DecidableEq

/-- The literal shell command each `GitCmd` stands for in the source. -/
def cmdString : GitCmd → String
  | GitCmd.revParse => "git rev-parse --git-dir"
  | GitCmd.status   => "git status --porcelain"
  | GitCmd.add      => "git add ."
  | GitCmd.commit m => "git commit -m \"" ++ m ++ "\""
  | GitCmd.push     => "git push"

/-- The environment of one run: the full `process.argv` (element 0 the node
binary, element 1 the script path, the rest the user arguments), and the
outcome of each external command the script may run.  `Except.error msg`
models `execSync` throwing with `error.message = msg`; `Except.ok out`
models success with captured stdout `out`. -/
structure Env where
  argv : List String
  gitRepoOk : Bool
  booksMdExists : Bool
  status : Option String
  addRes : Except String String
  commitRes : Except String String
  pushRes : Except String String

/-- Wall-clock date and time at message-generation time. -/
structure DateTime where
  year : Nat
  month : Nat
  day : Nat
  hour : Nat
  minute : Nat

/-- en-US short month names, as produced by the external platform call
`toLocaleDateString` with the en-US locale and the short month option
(e.g. "Aug"). -/
def monthShort : Nat → String
  | 1 => "Jan" | 2 => "Feb" | 3 => "Mar" | 4 => "Apr"
  | 5 => "May" | 6 => "Jun" | 7 => "Jul" | 8 => "Aug"
  | 9 => "Sep" | 10 => "Oct" | 11 => "Nov" | 12 => "Dec"
  | _ => ""

/-- Zero-pad a number to two digits, as the `2-digit` locale option does. -/
def pad2 (n : Nat) : String :=
  if n < 10 then "0" ++ toString n else toString n

/-- Hour on the 12-hour clock used by the en-US time format. -/
def hour12 (h : Nat) : Nat :=
  if h % 12 = 0 then 12 else h % 12

/-- The call `now.toLocaleDateString` with en-US locale, numeric year,
short month and numeric day: the platform en-US short date, e.g.
"Aug 19, 2025". -/
def formatDateEnUS (now : DateTime) : String :=
  monthShort now.month ++ " " ++ toString now.day ++ ", " ++ toString now.year

/-- The call `now.toLocaleTimeString` with en-US locale and 2-digit hour
and minute: the platform en-US 12-hour time, e.g. "03:45 PM". -/
def formatTimeEnUS (now : DateTime) : String :=
  pad2 (hour12 now.hour) ++ ":" ++ pad2 now.minute ++ " " ++
    (if now.hour < 12 then "AM" else "PM")

/-- `getCommitMessage()` from update-books.js: the user arguments
(`process.argv.slice(2)`) joined by single spaces when there is at least
one; otherwise the timestamped default message. -/
def getCommitMessage (argv : List String) (now : DateTime) : String :=
  let args := argv.drop 2
  if args.length > 0 then
    String.intercalate " " args
  else
    "Update book list - " ++ formatDateEnUS now ++ " at " ++ formatTimeEnUS now

/-- `checkGitRepo()`: whether `git rev-parse --git-dir` succeeded. -/
def checkGitRepo (e : Env) : Bool := e.gitRepoOk

/-- `checkBooksFile()`: whether `fs.existsSync` reports `books.md` present. -/
def checkBooksFile (e : Env) : Bool := e.booksMdExists

/-- The JavaScript `String.prototype.trim()`: strip leading and trailing
whitespace.  Written structurally over the character list so it evaluates. -/
def jsTrim (s : String) : String :=
  ⟨((s.data.dropWhile Char.isWhitespace).reverse.dropWhile
      Char.isWhitespace).reverse⟩

/-- `hasChanges()`: `git status --porcelain` output, trimmed, is nonempty;
a throwing status query (`none`) is caught and reported as `false`. -/
def hasChanges (e : Env) : Bool :=
  match e.status with
  | some out => decide ((jsTrim out).length > 0)
  | none => false

/-- `runCommand(command, description)`: logs the description in blue, runs
the command; on success prints the trimmed output when nonempty and returns
true, on failure prints the error message in red and returns false.
Returns the success flag and the `console.log` calls made. -/
def runCommand (result : Except String String) (description : String) :
    Bool × List String :=
  let header := logLine (colorBlue ++ description ++ "..." ++ colorReset) colorReset
  match result with
  | Except.ok output =>
      if (jsTrim output).length > 0 then (true, [header, jsTrim output])
      else (true, [header])
  | Except.error msg =>
      (false, [header, logLine ("❌ Error: " ++ msg) colorRed])

/-- Success flag of an external command outcome. -/
def cmdOk : Except String String → Bool
  | Except.ok _ => true
  | Except.error _ => false

/-- The `steps` array built in `main()`: command, its outcome in this
environment, and its description. -/
def steps (e : Env) (msg : String) :
    List (GitCmd × Except String String × String) :=
  [ (GitCmd.add, e.addRes, "Adding changes to staging area"),
    (GitCmd.commit msg, e.commitRes, "Creating commit"),
    (GitCmd.push, e.pushRes, "Pushing to GitHub") ]

/-- The failure message printed when a step fails, before `process.exit(1)`. -/
def failLine : String :=
  logLine "\n❌ Update failed. Please check the error above." colorRed

/-- The `for (const [command, description] of steps)` loop: run each step in
order via `runCommand`; on the first failure print `failLine` and exit 1
(remaining steps skipped); if all succeed the loop falls through (code 0).
Returns (exit code, commands executed, console output). -/
def runSteps : List (GitCmd × Except String String × String) →
    Nat × List GitCmd × List String
  | [] => (0, [], [])
  | (c, res, desc) :: rest =>
      let r := runCommand res desc
      if r.1 then
        let k := runSteps rest
        (k.1, c :: k.2.1, r.2 ++ k.2.2)
      else
        (1, [c], r.2 ++ [failLine])

/-- Result of a whole run: process exit code, external commands executed in
order, and the `console.log` calls made. -/
structure RunResult where
  exitCode : Nat
  cmds : List GitCmd
  output : List String
deriving DecidableEq

/-- The banner `main()` prints first. -/
def headerLine : String :=
  logLine (colorBold ++ "📚 Book List Update Script" ++ colorReset ++ "\n") colorReset

/-- The message `checkGitRepo()` logs on failure. -/
def noRepoLine : String :=
  logLine "❌ This is not a Git repository. Please run \"git init\" first." colorRed

/-- The message `checkBooksFile()` logs on failure. -/
def noBooksLine : String :=
  logLine "❌ books.md file not found. Please create it first." colorRed

/-- The message logged when `hasChanges()` is false. -/
def noChangesLine : String :=
  logLine "✨ No changes detected. Your book list is up to date!" colorGreen

/-- The two messages logged after the loop completes successfully. -/
def successLines : List String :=
  [ logLine "\n✅ Book list updated successfully!" colorGreen,
    logLine "🌐 Your changes should be live on GitHub Pages in a few minutes." colorYellow ]

/-- `main()` from update-books.js.  The source
`if (!checkGitRepo() || !checkBooksFile()) process.exit(1)` is expanded into
nested ifs (the `||` short-circuits, and `checkBooksFile` runs no external
command, so the traces agree); the precondition failure messages are logged
inside the respective check functions in the source. -/
def main (e : Env) (now : DateTime) : RunResult :=
  if !(checkGitRepo e) then
    ⟨1, [GitCmd.revParse], [headerLine, noRepoLine]⟩
  else if !(checkBooksFile e) then
    ⟨1, [GitCmd.revParse], [headerLine, noBooksLine]⟩
  else if !(hasChanges e) then
    ⟨0, [GitCmd.revParse, GitCmd.status], [headerLine, noChangesLine]⟩
  else
    let msg := getCommitMessage e.argv now
    let msgLine := logLine ("📝 Commit message: \"" ++ msg ++ "\"\n") colorReset
    let r := runSteps (steps e msg)
    if r.1 = 0 then
      ⟨0, GitCmd.revParse :: GitCmd.status :: r.2.1,
        [headerLine, msgLine] ++ r.2.2 ++ successLines⟩
    else
      ⟨1, GitCmd.revParse :: GitCmd.status :: r.2.1,
        [headerLine, msgLine] ++ r.2.2⟩

/-- The help-flag check at the bottom of update-books.js: whether
`--help` or `-h` occurs anywhere in `process.argv`. -/
def helpRequested (argv : List String) : Bool :=
  argv.contains "--help" || argv.contains "-h"

/-- The usage text printed on `--help` / `-h` (the template literal at
lines 130-147 of the source, verbatim). -/
def usageText : String :=
  "\n📚 Book List Update Script\n\nUsage:\n  node update-books.js [commit message]\n\nExamples:\n  node update-books.js                    # Uses automatic commit message\n  node update-books.js \"Added 5 new books to wishlist\"\n  node update-books.js \"Finished reading Dune\"\n\nThis script will:\n1. Add all changes to git\n2. Create a commit with your message (or auto-generated one)\n3. Push the changes to GitHub\n\nMake sure you\x27re in a git repository and have a books.md file.\n"

/-- The whole script: if `--help` or `-h` appears anywhere in
`process.argv`, print the usage text and exit 0; otherwise run `main()`. -/
def script (e : Env) (now : DateTime) : RunResult :=
  if helpRequested e.argv then ⟨0, [], [usageText]⟩
  else main e now

/-- `fs.existsSync` on a relative path resolves it against the current
working directory of the process (Node path semantics): the file exists iff
the absolute path `cwd ++ "/" ++ rel` is among the files on disk. -/
def existsSyncRel (files : List String) (cwd : String) (rel : String) : Bool :=
  files.contains (cwd ++ "/" ++ rel)

/-- `checkBooksFile()` seen at the path level: `fs.existsSync` checks the
literal relative path `books.md` against the current working directory
(line 55 of the source). -/
def checkBooksFileAt (files : List String) (cwd : String) : Bool :=
  existsSyncRel files cwd "books.md"

/-- Modelled external tool behavior: `git rev-parse --git-dir` succeeds from
the repository root and from any directory below it (git searches upward for
the repository). -/
def gitRepoValidFrom (repoRoot : String) (cwd : String) : Bool :=
  repoRoot == cwd || List.isPrefixOf (repoRoot ++ "/").data cwd.data

/-! Concrete sample runs used to instantiate the theorems below. -/

/-- A `process.argv` with no user arguments. -/
def argvPlain : List String := ["/usr/bin/node", "update-books.js"]

/-- A sample wall-clock instant: Aug 19, 2025, 15:45. -/
def nowSample : DateTime := ⟨2025, 8, 19, 15, 45⟩

/-- A run where every external command succeeds and the tree is dirty. -/
def envAllOk : Env :=
  ⟨argvPlain, true, true, some " M books.md",
    Except.ok "", Except.ok "[main 1a2b3c] update", Except.ok ""⟩

/-- A run in a directory that is not a git repository. -/
def envNoRepo : Env :=
  ⟨argvPlain, false, true, some " M books.md",
    Except.ok "", Except.ok "", Except.ok ""⟩

/-- A run in a valid repository where books.md is missing. -/
def envNoBooks : Env :=
  ⟨argvPlain, true, false, some " M books.md",
    Except.ok "", Except.ok "", Except.ok ""⟩

/-- A run where the status query reports an empty (clean) working tree. -/
def envClean : Env :=
  ⟨argvPlain, true, true, some "", Except.ok "", Except.ok "", Except.ok ""⟩

/-- A run where staging succeeds and the commit command fails. -/
def envCommitFails : Env :=
  ⟨argvPlain, true, true, some " M books.md",
    Except.ok "", Except.error "Command failed: git commit", Except.ok ""⟩

/-- A run where the status query itself throws. -/
def envStatusFails : Env :=
  ⟨argvPlain, true, true, none, Except.ok "", Except.ok "", Except.ok ""⟩

/-- A run invoked with `--help` on a dirty working tree. -/
def envHelp : Env :=
  ⟨["/usr/bin/node", "update-books.js", "--help"], true, true,
    some " M books.md", Except.ok "", Except.ok "", Except.ok ""⟩

/-- The success flag `runCommand` returns depends only on whether the
command succeeded, not on its captured output. -/
theorem runCommand_fst (r : Except String String) (d : String) :
    (runCommand r d).1 = cmdOk r := by
  cases r with
  | ok out =>
      unfold runCommand cmdOk
      dsimp only
      split <;> rfl
  | error m => rfl

/-- C1: for every argument list of length at least 1 not containing
`--help` or `-h`, the resolved commit message equals the user arguments
(`process.argv` from index 2 on) joined by single spaces, verbatim, with no
trimming and no escaping. -/
theorem commitMessage_joins_args (argv : List String) (now : DateTime)
    (h1 : 1 ≤ (argv.drop 2).length)
    (h2 : "--help" ∉ argv.drop 2) (h3 : "-h" ∉ argv.drop 2) :
    getCommitMessage argv now = String.intercalate " " (argv.drop 2) := by
  obtain ⟨y, ys, hx⟩ : ∃ y ys, argv.drop 2 = y :: ys := by
    cases hd : argv.drop 2 with
    | nil => rw [hd] at h1; simp at h1
    | cons y ys => exact ⟨y, ys, rfl⟩
  simp [getCommitMessage, hx]

/-- Witness for C1: with user arguments `Finished reading Dune`, the
resolved commit message is exactly `Finished reading Dune`. -/
theorem commitMessage_joins_args_ex :
    getCommitMessage
      ["/usr/bin/node", "update-books.js", "Finished", "reading", "Dune"]
      nowSample = "Finished reading Dune" := by
  have h := commitMessage_joins_args
    ["/usr/bin/node", "update-books.js", "Finished", "reading", "Dune"]
    nowSample (by decide) (by decide) (by decide)
  rw [h]; rfl

/-- C2: in every run, the commit command appears in the executed-command
trace only if the pending-changes check reported true, and the push command
appears only if the commit command reported success. -/
theorem main_commit_push_invariant (e : Env) (now : DateTime) :
    ((∃ m, GitCmd.commit m ∈ (main e now).cmds) → hasChanges e = true) ∧
    (GitCmd.push ∈ (main e now).cmds →
      hasChanges e = true ∧ ∃ out, e.commitRes = Except.ok out) := by
  cases hg : e.gitRepoOk <;> cases hb : e.booksMdExists <;>
    cases hc : hasChanges e <;>
    rcases ha : e.addRes with a | a <;>
    rcases hk : e.commitRes with k | k <;>
    rcases hp : e.pushRes with p | p <;>
    simp [main, checkGitRepo, checkBooksFile, runSteps, steps, runCommand_fst,
      cmdOk, hg, hb, hc, ha, hk, hp]

/-- Witness for C2: in the all-success run the push command executes, so
the invariant yields that changes were pending and the commit succeeded. -/
theorem main_commit_push_invariant_ex :
    hasChanges envAllOk = true ∧ ∃ out, envAllOk.commitRes = Except.ok out :=
  (main_commit_push_invariant envAllOk nowSample).2 (by decide)

/-- C3 counterexample: with a valid repository and books.md absent, the
process exits 1 but the executed-command trace is not empty: the
repository-validity check `git rev-parse --git-dir` — a version-control
command — has been executed, contrary to the claim that no version-control
commands are executed. -/
theorem booksMissing_counterexample :
    envNoBooks.gitRepoOk = true ∧ envNoBooks.booksMdExists = false ∧
    (main envNoBooks nowSample).exitCode = 1 ∧
    (main envNoBooks nowSample).cmds ≠ [] ∧
    GitCmd.revParse ∈ (main envNoBooks nowSample).cmds := by decide

/-- C3 amended: if books.md is absent while the working directory is a
valid repository, the process exits non-zero and the only version-control
command executed is the repository-validity check that has already run; in
particular no status, stage, commit or push command is executed. -/
theorem booksMissing_exits_one (e : Env) (now : DateTime)
    (hg : e.gitRepoOk = true) (hb : e.booksMdExists = false) :
    main e now = ⟨1, [GitCmd.revParse], [headerLine, noBooksLine]⟩ := by
  simp [main, checkGitRepo, checkBooksFile, hg, hb]

/-- Witness for C3 amended: the concrete missing-books run. -/
theorem booksMissing_exits_one_ex :
    main envNoBooks nowSample =
      ⟨1, [GitCmd.revParse], [headerLine, noBooksLine]⟩ :=
  booksMissing_exits_one envNoBooks nowSample rfl rfl

/-- C4: if the working directory is not a repository, the process exits
non-zero and the only external command executed is the repository-validity
check itself. -/
theorem notRepo_exits_one (e : Env) (now : DateTime)
    (hg : e.gitRepoOk = false) :
    main e now = ⟨1, [GitCmd.revParse], [headerLine, noRepoLine]⟩ := by
  simp [main, checkGitRepo, hg]

/-- Witness for C4: the concrete not-a-repository run. -/
theorem notRepo_exits_one_ex :
    main envNoRepo nowSample =
      ⟨1, [GitCmd.revParse], [headerLine, noRepoLine]⟩ :=
  notRepo_exits_one envNoRepo nowSample rfl

/-- C5: if the status query reports empty output, the process exits 0 and
only the repository check and the status query were executed — no stage,
commit or push command. -/
theorem cleanTree_exits_zero (e : Env) (now : DateTime)
    (hg : e.gitRepoOk = true) (hb : e.booksMdExists = true)
    (hs : e.status = some "") :
    (main e now).exitCode = 0 ∧
    (main e now).cmds = [GitCmd.revParse, GitCmd.status] := by
  have hc : hasChanges e = false := by
    simp only [hasChanges, hs]
    decide
  simp [main, checkGitRepo, checkBooksFile, hg, hb, hc]

/-- Witness for C5: the concrete clean-tree run. -/
theorem cleanTree_exits_zero_ex :
    (main envClean nowSample).exitCode = 0 ∧
    (main envClean nowSample).cmds = [GitCmd.revParse, GitCmd.status] :=
  cleanTree_exits_zero envClean nowSample rfl rfl rfl

/-- C6: in every run where the stage step executed and succeeded and the
commit command fails, the process exits non-zero and push is never
attempted. -/
theorem commitFail_no_push (e : Env) (now : DateTime) (a m : String)
    (h1 : GitCmd.add ∈ (main e now).cmds)
    (ha : e.addRes = Except.ok a) (hk : e.commitRes = Except.error m) :
    (main e now).exitCode = 1 ∧ GitCmd.push ∉ (main e now).cmds := by
  cases hg : e.gitRepoOk <;> cases hb : e.booksMdExists <;>
    cases hc : hasChanges e <;>
    simp_all [main, checkGitRepo, checkBooksFile, runSteps, steps,
      runCommand_fst, cmdOk]

/-- Witness for C6: the concrete run whose commit command fails. -/
theorem commitFail_no_push_ex :
    (main envCommitFails nowSample).exitCode = 1 ∧
    GitCmd.push ∉ (main envCommitFails nowSample).cmds :=
  commitFail_no_push envCommitFails nowSample "" "Command failed: git commit"
    (by decide) rfl rfl

/-- C7: if the status query itself fails, `hasChanges` reports false, and
(when the preconditions hold) the run does not abort: it exits 0. -/
theorem statusFail_reports_no_changes (e : Env) (now : DateTime)
    (hs : e.status = none) :
    hasChanges e = false ∧
    (e.gitRepoOk = true → e.booksMdExists = true →
      (main e now).exitCode = 0) := by
  have hc : hasChanges e = false := by simp [hasChanges, hs]
  refine ⟨hc, fun hg hb => ?_⟩
  simp [main, checkGitRepo, checkBooksFile, hg, hb, hc]

/-- Witness for C7: the concrete failing-status-query run. -/
theorem statusFail_reports_no_changes_ex :
    hasChanges envStatusFails = false ∧
    (envStatusFails.gitRepoOk = true → envStatusFails.booksMdExists = true →
      (main envStatusFails nowSample).exitCode = 0) :=
  statusFail_reports_no_changes envStatusFails nowSample rfl

/-- C8: if `--help` or `-h` appears anywhere in the user argument list
(regardless of the working-tree state in `e`), the usage text is the sole
output, the exit status is 0 and zero version-control commands execute. -/
theorem help_prints_usage (e : Env) (now : DateTime)
    (h : "--help" ∈ e.argv.drop 2 ∨ "-h" ∈ e.argv.drop 2) :
    script e now = ⟨0, [], [usageText]⟩ := by
  have hr : helpRequested e.argv = true := by
    rcases h with h | h
    · have hm := List.mem_of_mem_drop h
      simp [helpRequested, hm]
    · have hm := List.mem_of_mem_drop h
      simp [helpRequested, hm]
  simp [script, hr]

/-- Witness for C8: the concrete `--help` run on a dirty tree. -/
theorem help_prints_usage_ex :
    script envHelp nowSample = ⟨0, [], [usageText]⟩ :=
  help_prints_usage envHelp nowSample (Or.inl (by decide))

/-- C9: for an empty argument list the resolved commit message is
`Update book list - <Month> <Day>, <Year> at <Time>`: the date part is the
en-US short date `<Month> <Day>, <Year>` and the time part the en-US
12-hour time, both taken from the wall clock `now`. -/
theorem emptyArgs_default_message (argv : List String) (now : DateTime)
    (h : argv.drop 2 = []) :
    getCommitMessage argv now =
      "Update book list - " ++ formatDateEnUS now ++ " at " ++
        formatTimeEnUS now := by
  unfold getCommitMessage
  rw [h]
  rfl

/-- Witness for C9: with no user arguments at the sample instant the
message is `Update book list - Aug 19, 2025 at 03:45 PM`. -/
theorem emptyArgs_default_message_ex :
    getCommitMessage argvPlain nowSample =
      "Update book list - " ++ formatDateEnUS nowSample ++ " at " ++
        formatTimeEnUS nowSample ∧
    getCommitMessage argvPlain nowSample =
      "Update book list - Aug 19, 2025 at 03:45 PM" :=
  ⟨emptyArgs_default_message argvPlain nowSample rfl, by decide⟩

/-- C10: the tracked-file check resolves the relative path `books.md`
against the current working directory, not the repository root: from the
subdirectory `/repo/docs` of a valid repository rooted at `/repo` that does
contain `/repo/books.md`, the check fails, while from the root it
succeeds. -/
theorem booksCheck_cwd_relative :
    gitRepoValidFrom "/repo" "/repo/docs" = true ∧
    (["/repo/books.md"] : List String).contains "/repo/books.md" = true ∧
    checkBooksFileAt ["/repo/books.md"] "/repo" = true ∧
    checkBooksFileAt ["/repo/books.md"] "/repo/docs" = false := by decide

end UpdateBooks
